import Mathlib

set_option linter.unusedVariables false

/-!
Shallow embedding of the classroom code-sync server core.

The embedding follows the TypeScript sources:
* `ConnectionManager` (src/extension/server/ConnectionManager.ts): a table of
  client connections keyed by id (a JS `Map`, modelled as an insertion-ordered
  list with unique ids), capacity 50, broadcast with deferred removal of dead
  connections, unicast send, liveness bookkeeping and the two heartbeat sweeps.
* `WebSocketServer.handleWebSocketConnection` (server entry): rejects a new
  socket before any entry is created once the table holds 50 connections.
* `MessageBroker.handleStudentMessage`: inbound dispatch with a try/catch
  around parsing and a permissive switch over the message type.
* `FileFilter` (src/extension/sync/FileFilter.ts): configuration loading with
  defaults and the `shouldSyncFile` decision procedure.  Library calls
  (`path.normalize`, `path.relative`, `minimatch`, `path.extname`) are
  abstracted as a `PathOps` record of functions; the decision structure itself
  is translated literally.
* `FileSyncManager` (src/extension/server/MessageBroker.ts, second unit):
  editor-change / document-change handlers, the debounce timer and the
  broadcast of `file_switch` / `file_update` messages.  Single-threaded timer
  behaviour is modelled by an explicit `debounceFire` step that can only run
  while a timer is pending.
-/

/-- Observable behaviour of a WebSocket handle, as far as the core reads it:
whether `readyState === WebSocket.OPEN`, and whether a `send` on it throws. -/
structure Socket where
  isOpen : Bool
  sendFails : Bool
  deriving DecidableEq

/-- `ClientConnection` record from ConnectionManager.ts. -/
structure ClientConnection where
  id : String
  ws : Socket
  connectedAt : Nat
  lastPing : Nat
  isAlive : Bool
  deriving DecidableEq

/-- The connection table (`Map<string, ClientConnection>`), insertion ordered. -/
structure ConnectionManager where
  connections : List ClientConnection
  deriving DecidableEq

namespace ConnectionManager

/-- `maxConnections` field. -/
def maxConnections : Nat := 50

/-- `getConnectionCount()`. -/
def getConnectionCount (m : ConnectionManager) : Nat :=
  m.connections.length

/-- `addConnection(ws)`: rejected with `null` when `size >= maxConnections`,
otherwise a fresh entry with `connectedAt = lastPing = now`, `isAlive = true`
is inserted.  The fresh id produced by `nanoid()` is passed in. -/
def addConnection (m : ConnectionManager) (clientId : String) (ws : Socket)
    (now : Nat) : Option String × ConnectionManager :=
  if maxConnections ≤ m.connections.length then
    (none, m)
  else
    (some clientId, ⟨m.connections ++ [⟨clientId, ws, now, now, true⟩]⟩)

/-- `removeConnection(clientId)`: deletes the entry if present (closing its
socket, which leaves the table either way) and returns whether it existed. -/
def removeConnection (m : ConnectionManager) (clientId : String) :
    Bool × ConnectionManager :=
  if m.connections.any (fun c => c.id == clientId) then
    (true, ⟨m.connections.filter (fun c => !(c.id == clientId))⟩)
  else
    (false, m)

/-- The single `forEach` pass of `broadcast`: returns, in iteration order, the
ids that received a `send` attempt and the ids pushed onto `deadConnections`
(send threw, or the socket was not OPEN).  No entry is removed during the
pass. -/
def broadcastScan : List ClientConnection → List String × List String
  | [] => ([], [])
  | c :: rest =>
    let res := broadcastScan rest
    if c.ws.isOpen then
      if c.ws.sendFails then (c.id :: res.1, c.id :: res.2)
      else (c.id :: res.1, res.2)
    else (res.1, c.id :: res.2)

/-- `broadcast(message)`: one delivery pass over the table, then the collected
dead connections are removed one by one.  Returns the ids that were attempted
together with the final table. -/
def broadcast (m : ConnectionManager) : List String × ConnectionManager :=
  let s := broadcastScan m.connections
  (s.1, s.2.foldl (fun acc cid => (removeConnection acc cid).2) m)

/-- `sendToClient(clientId, message)`: sends when the entry exists and its
socket is OPEN; a throwing send removes the connection and returns false; a
missing entry or a non-OPEN socket returns false with no other effect. -/
def sendToClient (m : ConnectionManager) (clientId : String) :
    Bool × ConnectionManager :=
  match m.connections.find? (fun c => c.id == clientId) with
  | some c =>
    if c.ws.isOpen then
      if c.ws.sendFails then (false, (removeConnection m clientId).2)
      else (true, m)
    else (false, m)
  | none => (false, m)

/-- `updatePing(clientId)`: refreshes `lastPing` and sets `isAlive`. -/
def updatePing (m : ConnectionManager) (clientId : String) (now : Nat) :
    ConnectionManager :=
  ⟨m.connections.map (fun c =>
    if c.id == clientId then { c with lastPing := now, isAlive := true } else c)⟩

/-- The 30s heartbeat sweep: removes entries whose `isAlive` is still false,
marks the rest `isAlive := false` (and pings the open ones). -/
def pingSweep (m : ConnectionManager) : ConnectionManager :=
  ⟨(m.connections.filter (fun c => c.isAlive)).map
    (fun c => { c with isAlive := false })⟩

/-- The 60s timeout sweep: removes entries with `now - lastPing > 60000`. -/
def timeoutSweep (m : ConnectionManager) (now : Nat) : ConnectionManager :=
  ⟨m.connections.filter (fun c => decide (now - c.lastPing ≤ 60000))⟩

/-- `disconnectAll()`: closes every socket and clears the table. -/
def disconnectAll (m : ConnectionManager) : ConnectionManager :=
  ⟨[]⟩

end ConnectionManager

/-- `WebSocketServer.handleWebSocketConnection(ws)`: when the table already
holds 50 connections the socket is closed with code 1008 before
`addConnection` is ever called; otherwise the connection is added and the
initial `connected` message is unicast to it. -/
def handleWebSocketConnection (m : ConnectionManager) (ws : Socket)
    (freshId : String) (now : Nat) : Option String × ConnectionManager :=
  if 50 ≤ m.getConnectionCount then
    (none, m)
  else
    match m.addConnection freshId ws now with
    | (none, m1) => (none, m1)
    | (some cid, m1) => (some cid, (m1.sendToClient cid).2)

/-- `MessageBroker.handleStudentMessage(clientId, rawMessage)`: JSON parsing is
abstracted as `parseType`, which yields the `type` field of the parsed message
or `none` when `JSON.parse` throws.  A parse failure is caught, logged and
dropped; a `ping` refreshes liveness and unicasts a `pong`; `auth` is deferred
to the server layer; any other type is logged as unknown and ignored.  Returns
the table together with the list of unicasts performed, as
`(clientId, message type)` pairs. -/
def handleStudentMessage (parseType : String → Option String)
    (m : ConnectionManager) (clientId : String) (raw : String) (now : Nat) :
    ConnectionManager × List (String × String) :=
  match parseType raw with
  | none => (m, [])
  | some ty =>
    if ty == "ping" then
      let m1 := m.updatePing clientId now
      ((m1.sendToClient clientId).2, [(clientId, "pong")])
    else if ty == "auth" then
      (m, [])
    else
      (m, [])

/-- The `classroomSync.sync` section of the workspace configuration: `none`
models a key the user has not set, in which case `config.get(key, default)`
returns the supplied default. -/
structure SyncSettings where
  includePatterns : Option (List String)
  excludePatterns : Option (List String)
  maxFileSize : Option Nat
  deriving DecidableEq

/-- The loaded fields of `FileFilter`. -/
structure FileFilterState where
  includePatterns : List String
  excludePatterns : List String
  maxFileSize : Nat
  deriving DecidableEq

/-- The default exclude list passed to `config.get('excludePatterns', ...)`. -/
def defaultExcludePatterns : List String :=
  ["**/.env", "**/.env.*", "**/node_modules/**", "**/.git/**", "**/*.key",
   "**/*.pem", "**/*.p12", "**/*.pfx", "**/credentials.json", "**/.vscode/**"]

/-- `FileFilter.loadConfiguration()`: each field is the user-set value when
one exists, and the hard-coded default otherwise. -/
def loadConfiguration (cfg : SyncSettings) : FileFilterState :=
  { includePatterns := cfg.includePatterns.getD []
    excludePatterns := cfg.excludePatterns.getD defaultExcludePatterns
    maxFileSize := cfg.maxFileSize.getD 1048576 }

/-- Library calls used by `FileFilter`, abstracted as functions:
`path.normalize`, `path.relative`, `minimatch(path, pattern, { dot: true })`
and `path.extname`. -/
structure PathOps where
  normalize : String → String
  relative : String → String → String
  minimatchDot : String → String → Bool
  extname : String → String

/-- The `binaryExtensions` list of `FileFilter.isBinaryFile`. -/
def binaryExtensions : List String :=
  [".exe", ".dll", ".so", ".dylib", ".bin",
   ".png", ".jpg", ".jpeg", ".gif", ".bmp", ".ico", ".svg",
   ".pdf", ".zip", ".tar", ".gz", ".rar", ".7z",
   ".mp3", ".mp4", ".avi", ".mov", ".wmv",
   ".woff", ".woff2", ".ttf", ".eot",
   ".db", ".sqlite", ".sqlite3"]

/-- `ext.toLowerCase()`, written on the character list so that it evaluates
by kernel reduction. -/
def strToLower (s : String) : String :=
  ⟨s.data.map Char.toLower⟩

/-- `normalizedPath.startsWith(workspacePath)`, written on the character
lists so that it evaluates by kernel reduction. -/
def strStartsWith (s pre : String) : Bool :=
  pre.data.isPrefixOf s.data

/-- `FileFilter.isBinaryFile(filePath)`. -/
def isBinaryFile (po : PathOps) (filePath : String) : Bool :=
  binaryExtensions.contains (strToLower (po.extname filePath))

/-- `relativePath.replace(/\\/g, '/')`. -/
def toSlashes (s : String) : String :=
  ⟨s.data.map (fun ch => if ch = '\\' then '/' else ch)⟩

/-- The workspace-relative, forward-slash path `shouldSyncFile` matches
patterns against. -/
def patternPathOf (po : PathOps) (filePath : String)
    (workspacePath : Option String) : String :=
  let normalizedPath := po.normalize filePath
  let relativePath :=
    match workspacePath with
    | some wp => po.relative wp normalizedPath
    | none => normalizedPath
  toSlashes relativePath

/-- `FileFilter.shouldSyncFile(filePath, workspaceFolder)`: reloads the
configuration, checks the workspace boundary, then exclude patterns, then
include patterns, then the binary-extension set. -/
def shouldSyncFile (po : PathOps) (cfg : SyncSettings) (filePath : String)
    (workspacePath : Option String) : Bool :=
  let st := loadConfiguration cfg
  let normalizedPath := po.normalize filePath
  let inBoundary :=
    match workspacePath with
    | some wp => strStartsWith normalizedPath (po.normalize wp)
    | none => true
  if !inBoundary then false
  else
    let patternPath := patternPathOf po filePath workspacePath
    if st.excludePatterns.any (fun p => po.minimatchDot patternPath p) then
      false
    else if st.includePatterns.length > 0 &&
        !(st.includePatterns.any (fun p => po.minimatchDot patternPath p)) then
      false
    else if isBinaryFile po filePath then
      false
    else
      true

/-- The fields of a tracked `vscode.TextDocument` that the sync engine reads;
`uri` is the identity (`uri.toString()`), and `content` is live: edits to the
document are visible through the same tracked reference. -/
structure TrackedDoc where
  uri : String
  fileName : String
  language : String
  content : String
  deriving DecidableEq

/-- Outbound broadcasts produced by the sync engine. -/
inductive BroadcastMsg
  | fileSwitch (uri fileName language content : String)
  | fileUpdate (uri fileName language content : String)
  deriving DecidableEq

/-- `FileSyncManager` state: the tracked current document, whether an
unexpired debounce timer is pending, and the log of broadcasts sent. -/
structure FileSyncState where
  currentDocument : Option TrackedDoc
  debounceTimer : Bool
  sent : List BroadcastMsg
  deriving DecidableEq

/-- `FileSyncManager.syncFileSwitch(document)`: broadcasts a `file_switch`
when the filter allows the document (the filter decision is abstracted as
`allowed` over the document identity). -/
def syncFileSwitch (allowed : String → Bool) (s : FileSyncState)
    (d : TrackedDoc) : FileSyncState :=
  if allowed d.uri then
    { s with sent :=
        s.sent ++ [BroadcastMsg.fileSwitch d.uri d.fileName d.language d.content] }
  else s

/-- `FileSyncManager.syncFileUpdate(document)`: broadcasts a `file_update`
when the filter allows the document. -/
def syncFileUpdate (allowed : String → Bool) (s : FileSyncState)
    (d : TrackedDoc) : FileSyncState :=
  if allowed d.uri then
    { s with sent :=
        s.sent ++ [BroadcastMsg.fileUpdate d.uri d.fileName d.language d.content] }
  else s

/-- `FileSyncManager.handleEditorChange(editor)`: with no editor, nothing
happens; otherwise any pending debounce timer is cleared first, and only when
the new document differs in identity from the tracked one does the engine
retarget and emit a `file_switch`. -/
def handleEditorChange (allowed : String → Bool) (s : FileSyncState)
    (ed : Option TrackedDoc) : FileSyncState :=
  match ed with
  | none => s
  | some d =>
    let s1 := { s with debounceTimer := false }
    let sameDoc :=
      match s.currentDocument with
      | some cd => cd.uri == d.uri
      | none => false
    if sameDoc then s1
    else syncFileSwitch allowed { s1 with currentDocument := some d } d

/-- `FileSyncManager.handleDocumentChange(event)`: ignored unless the event is
on the tracked document and carries at least one content change; otherwise the
tracked document's live content advances and the debounce timer is
(re)started. -/
def handleDocumentChange (s : FileSyncState) (uri newContent : String)
    (hasDelta : Bool) : FileSyncState :=
  match s.currentDocument with
  | none => s
  | some d =>
    if d.uri == uri && hasDelta then
      { s with currentDocument := some { d with content := newContent },
               debounceTimer := true }
    else s

/-- The debounce timer expiring: only possible while a timer is pending, and
then it runs `syncFileUpdate(this.currentDocument)` against the state at fire
time. -/
def debounceFire (allowed : String → Bool) (s : FileSyncState) : FileSyncState :=
  if s.debounceTimer then
    match s.currentDocument with
    | some d => { syncFileUpdate allowed s d with debounceTimer := false }
    | none => { s with debounceTimer := false }
  else s

/-- A burst of content-changed events on one document, each arriving before
the previous one's debounce timer expires. -/
def runBurst (s : FileSyncState) (uri : String) (cs : List String) :
    FileSyncState :=
  cs.foldl (fun st c => handleDocumentChange st uri c true) s

namespace ConnectionManager

theorem removeConnection_connections (m : ConnectionManager) (cid : String) :
    (m.removeConnection cid).2.connections =
      m.connections.filter (fun c => !(c.id == cid)) := by
  unfold removeConnection
  by_cases h : m.connections.any (fun c => c.id == cid)
  · rw [if_pos h]
  · rw [if_neg h]
    symm
    apply List.filter_eq_self.mpr
    intro c hc
    simp only [Bool.not_eq_true']
    cases hcc : (c.id == cid) with
    | false => rfl
    | true => exact (h (List.any_eq_true.mpr ⟨c, hc, hcc⟩)).elim

theorem foldl_remove_connections (dead : List String) (l : List ClientConnection) :
    ((dead.foldl (fun acc cid => (acc.removeConnection cid).2)
        (⟨l⟩ : ConnectionManager)).connections)
      = l.filter (fun c => !(dead.contains c.id)) := by
  induction dead generalizing l with
  | nil => simp
  | cons d ds ih =>
    rw [List.foldl_cons]
    have h1 : ((⟨l⟩ : ConnectionManager).removeConnection d).2 =
        (⟨l.filter (fun c => !(c.id == d))⟩ : ConnectionManager) :=
      congrArg ConnectionManager.mk (removeConnection_connections ⟨l⟩ d)
    rw [h1, ih, List.filter_filter]
    refine List.filter_congr ?_
    intro c hc
    cases h : (c.id == d) <;> cases h2 : ds.contains c.id <;>
      simp_all [List.contains_cons]

theorem broadcast_connections_raw (m : ConnectionManager) :
    m.broadcast.2.connections =
      m.connections.filter
        (fun c => !((broadcastScan m.connections).2.contains c.id)) := by
  show ((broadcastScan m.connections).2.foldl
      (fun acc cid => (acc.removeConnection cid).2) m).connections = _
  exact foldl_remove_connections (broadcastScan m.connections).2 m.connections

end ConnectionManager

/-- C1: the connection table never holds more than 50 entries.  An
`addConnection` attempted at size at least 50 is rejected (no id) and leaves
the table unchanged, the server rejects such a socket before any entry is
created, and every table operation preserves the bound `size ≤ 50`. -/
theorem connection_capacity_bounded (m : ConnectionManager) (freshId : String)
    (ws : Socket) (now : Nat) (cid : String) :
    (50 ≤ m.connections.length →
      m.addConnection freshId ws now = (none, m) ∧
      handleWebSocketConnection m ws freshId now = (none, m)) ∧
    (m.connections.length ≤ 50 →
      (m.addConnection freshId ws now).2.connections.length ≤ 50 ∧
      (m.removeConnection cid).2.connections.length ≤ 50 ∧
      m.broadcast.2.connections.length ≤ 50 ∧
      (m.sendToClient cid).2.connections.length ≤ 50 ∧
      (m.updatePing cid now).connections.length ≤ 50 ∧
      m.pingSweep.connections.length ≤ 50 ∧
      (m.timeoutSweep now).connections.length ≤ 50 ∧
      m.disconnectAll.connections.length ≤ 50) := by
  constructor
  · intro h
    constructor
    · simp [ConnectionManager.addConnection, ConnectionManager.maxConnections, h]
    · simp [handleWebSocketConnection, ConnectionManager.getConnectionCount, h]
  · intro h
    refine ⟨?_, ?_, ?_, ?_, ?_, ?_, ?_, ?_⟩
    · unfold ConnectionManager.addConnection ConnectionManager.maxConnections
      by_cases h50 : 50 ≤ m.connections.length
      · simpa [h50] using h
      · simp only [if_neg h50, List.length_append, List.length_cons,
          List.length_nil]
        exact Nat.succ_le_of_lt (Nat.lt_of_not_le h50)
    · rw [ConnectionManager.removeConnection_connections]
      exact le_trans (List.length_filter_le _ _) h
    · rw [ConnectionManager.broadcast_connections_raw]
      exact le_trans (List.length_filter_le _ _) h
    · unfold ConnectionManager.sendToClient
      cases hf : m.connections.find? (fun c => c.id == cid) with
      | none => simpa using h
      | some c =>
        cases ho : c.ws.isOpen <;> cases hsf : c.ws.sendFails <;>
          simp [ho, hsf, ConnectionManager.removeConnection_connections] <;>
          first
            | exact h
            | exact le_trans (List.length_filter_le _ _) h
    · unfold ConnectionManager.updatePing
      simpa using h
    · unfold ConnectionManager.pingSweep
      simp only [List.length_map]
      exact le_trans (List.length_filter_le _ _) h
    · unfold ConnectionManager.timeoutSweep
      exact le_trans (List.length_filter_le _ _) h
    · simp [ConnectionManager.disconnectAll]

/-- C1 witness: at a concrete full table the add is rejected unchanged, and at
a concrete small table the bound is preserved. -/
theorem connection_capacity_bounded_witness :
    ConnectionManager.addConnection
        ⟨List.replicate 50 (⟨"a", ⟨true, false⟩, 0, 0, true⟩ : ClientConnection)⟩ "b" ⟨true, false⟩ 7
      = (none, ⟨List.replicate 50 (⟨"a", ⟨true, false⟩, 0, 0, true⟩ : ClientConnection)⟩) ∧
    (ConnectionManager.addConnection
        ⟨[⟨"a", ⟨true, false⟩, 0, 0, true⟩]⟩ "b" ⟨true, false⟩ 7).2.connections.length ≤ 50 :=
  ⟨((connection_capacity_bounded
      ⟨List.replicate 50 (⟨"a", ⟨true, false⟩, 0, 0, true⟩ : ClientConnection)⟩ "b" ⟨true, false⟩ 7 "a").1
      (by simp)).1,
   ((connection_capacity_bounded
      ⟨[⟨"a", ⟨true, false⟩, 0, 0, true⟩]⟩ "b" ⟨true, false⟩ 7 "a").2
      (by simp)).1⟩

namespace ConnectionManager

theorem broadcastScan_fst (l : List ClientConnection) :
    (broadcastScan l).1 =
      (l.filter (fun c => c.ws.isOpen)).map (fun c => c.id) := by
  induction l with
  | nil => rfl
  | cons c rest ih =>
    cases ho : c.ws.isOpen <;> cases hs : c.ws.sendFails <;>
      simp [broadcastScan, ho, hs, ih]

theorem broadcastScan_snd (l : List ClientConnection) :
    (broadcastScan l).2 =
      (l.filter (fun c => !c.ws.isOpen || c.ws.sendFails)).map (fun c => c.id) := by
  induction l with
  | nil => rfl
  | cons c rest ih =>
    cases ho : c.ws.isOpen <;> cases hs : c.ws.sendFails <;>
      simp [broadcastScan, ho, hs, ih]

theorem dead_contains_eq (l : List ClientConnection)
    (hnd : (l.map (fun c => c.id)).Nodup) (c : ClientConnection) (hc : c ∈ l) :
    (broadcastScan l).2.contains c.id = (!c.ws.isOpen || c.ws.sendFails) := by
  rw [broadcastScan_snd]
  cases hflag : (!c.ws.isOpen || c.ws.sendFails) with
  | true =>
    have hmem : c.id ∈
        (l.filter (fun c => !c.ws.isOpen || c.ws.sendFails)).map (fun c => c.id) :=
      List.mem_map_of_mem _ (List.mem_filter.mpr ⟨hc, hflag⟩)
    simp [hmem]
  | false =>
    have hnotmem : c.id ∉
        (l.filter (fun c => !c.ws.isOpen || c.ws.sendFails)).map (fun c => c.id) := by
      intro hmem
      rcases List.mem_map.mp hmem with ⟨c2, hc2, hid⟩
      rcases List.mem_filter.mp hc2 with ⟨hc2l, hflag2⟩
      have he : c2 = c := List.inj_on_of_nodup_map hnd hc2l hc hid
      rw [he] at hflag2
      rw [hflag] at hflag2
      exact absurd hflag2 Bool.false_ne_true
    simp [hnotmem]

theorem broadcast_attempts (m : ConnectionManager) :
    m.broadcast.1 = (m.connections.filter (fun c => c.ws.isOpen)).map (fun c => c.id) :=
  broadcastScan_fst m.connections

theorem broadcast_connections (m : ConnectionManager)
    (hnd : (m.connections.map (fun c => c.id)).Nodup) :
    m.broadcast.2.connections =
      m.connections.filter (fun c => c.ws.isOpen && !c.ws.sendFails) := by
  rw [broadcast_connections_raw]
  refine List.filter_congr ?_
  intro c hc
  rw [dead_contains_eq m.connections hnd c hc]
  cases ho : c.ws.isOpen <;> cases hs : c.ws.sendFails <;> simp [ho, hs]

end ConnectionManager

/-- C2: in any `broadcast` call over a table with unique ids, the delivery
pass attempts a send on exactly the connections whose socket is OPEN at the
start of the call, in table order; connections whose send throws are only
marked and removed after the pass, so every live connection still receives its
attempt and every live connection with a non-throwing send stays in the
table. -/
theorem broadcast_delivery_isolation (m : ConnectionManager)
    (hnd : (m.connections.map (fun c => c.id)).Nodup) :
    m.broadcast.1 = (m.connections.filter (fun c => c.ws.isOpen)).map (fun c => c.id) ∧
    ∀ c ∈ m.connections, c.ws.isOpen = true →
      c.id ∈ m.broadcast.1 ∧
      (c.ws.sendFails = false → c ∈ m.broadcast.2.connections) := by
  refine ⟨ConnectionManager.broadcast_attempts m, ?_⟩
  intro c hc ho
  constructor
  · rw [ConnectionManager.broadcast_attempts]
    exact List.mem_map_of_mem _ (List.mem_filter.mpr ⟨hc, by simp [ho]⟩)
  · intro hs
    rw [ConnectionManager.broadcast_connections m hnd]
    exact List.mem_filter.mpr ⟨hc, by simp [ho, hs]⟩

/-- C2 witness: with one healthy and one throwing connection, both OPEN, both
are attempted. -/
theorem broadcast_delivery_isolation_witness :
    (ConnectionManager.broadcast
        ⟨[⟨"a", ⟨true, false⟩, 0, 0, true⟩, ⟨"b", ⟨true, true⟩, 0, 0, true⟩]⟩).1 =
      (([⟨"a", ⟨true, false⟩, 0, 0, true⟩,
         ⟨"b", ⟨true, true⟩, 0, 0, true⟩] : List ClientConnection).filter
        (fun c => c.ws.isOpen)).map (fun c => c.id) :=
  (broadcast_delivery_isolation
    ⟨[⟨"a", ⟨true, false⟩, 0, 0, true⟩, ⟨"b", ⟨true, true⟩, 0, 0, true⟩]⟩
    (by decide)).1

/-- C10: in any `broadcast` call over a table with unique ids, a connection
whose socket is not OPEN is never attempted and is gone from the table when
the call returns; the surviving entries are exactly those whose socket was
OPEN and whose send did not throw. -/
theorem broadcast_prunes_nonopen (m : ConnectionManager)
    (hnd : (m.connections.map (fun c => c.id)).Nodup) :
    m.broadcast.2.connections =
      m.connections.filter (fun c => c.ws.isOpen && !c.ws.sendFails) ∧
    ∀ c ∈ m.connections, c.ws.isOpen = false →
      c.id ∉ m.broadcast.1 ∧ c ∉ m.broadcast.2.connections := by
  refine ⟨ConnectionManager.broadcast_connections m hnd, ?_⟩
  intro c hc ho
  constructor
  · rw [ConnectionManager.broadcast_attempts]
    intro hmem
    rcases List.mem_map.mp hmem with ⟨c2, hc2, hid⟩
    rcases List.mem_filter.mp hc2 with ⟨hc2l, hopen2⟩
    have he : c2 = c := List.inj_on_of_nodup_map hnd hc2l hc hid
    rw [he] at hopen2
    simp [ho] at hopen2
  · rw [ConnectionManager.broadcast_connections m hnd]
    intro hmem
    rcases List.mem_filter.mp hmem with ⟨hcl, hflag⟩
    simp [ho] at hflag

/-- C10 witness: a non-OPEN connection is pruned by a broadcast while the
healthy one survives. -/
theorem broadcast_prunes_nonopen_witness :
    (ConnectionManager.broadcast
        ⟨[⟨"c", ⟨false, false⟩, 0, 0, true⟩, ⟨"d", ⟨true, false⟩, 0, 0, true⟩]⟩).2.connections =
      ([⟨"c", ⟨false, false⟩, 0, 0, true⟩,
        ⟨"d", ⟨true, false⟩, 0, 0, true⟩] : List ClientConnection).filter
        (fun c => c.ws.isOpen && !c.ws.sendFails) :=
  (broadcast_prunes_nonopen
    ⟨[⟨"c", ⟨false, false⟩, 0, 0, true⟩, ⟨"d", ⟨true, false⟩, 0, 0, true⟩]⟩
    (by decide)).1

/-- C8 counterexample: with the single connection "a" present but its socket
not OPEN, `sendToClient` returns false (the unicast fails) yet the connection
is still in the table afterwards, against the claim that a failing unicast to
a present id removes the connection. -/
theorem sendToClient_closed_socket_cex :
    (ConnectionManager.sendToClient ⟨[⟨"a", ⟨false, false⟩, 0, 0, true⟩]⟩ "a").1 = false ∧
    "a" ∈ ((ConnectionManager.sendToClient
        ⟨[⟨"a", ⟨false, false⟩, 0, 0, true⟩]⟩ "a").2.connections.map (fun c => c.id)) ∧
    "a" ∈ (([⟨"a", ⟨false, false⟩, 0, 0, true⟩] : List ClientConnection).map
        (fun c => c.id)) := by
  decide

/-- C8 amended: for a connection id present in the table, a send whose socket
transmit throws removes the connection and returns false; a successful send
returns true and leaves the table unchanged; and a send to a present
connection whose socket is not OPEN returns false with the table unchanged
(no removal happens in that case). -/
theorem sendToClient_failure_semantics (m : ConnectionManager) (cid : String)
    (c : ClientConnection)
    (hf : m.connections.find? (fun c => c.id == cid) = some c) :
    (c.ws.isOpen = true → c.ws.sendFails = true →
      m.sendToClient cid = (false, (m.removeConnection cid).2) ∧
      cid ∉ ((m.removeConnection cid).2.connections.map (fun c => c.id))) ∧
    (c.ws.isOpen = true → c.ws.sendFails = false →
      m.sendToClient cid = (true, m)) ∧
    (c.ws.isOpen = false → m.sendToClient cid = (false, m)) := by
  refine ⟨?_, ?_, ?_⟩
  · intro h1 h2
    constructor
    · unfold ConnectionManager.sendToClient
      rw [hf]
      simp [h1, h2]
    · rw [ConnectionManager.removeConnection_connections]
      intro hmem
      rcases List.mem_map.mp hmem with ⟨c2, hc2, hid⟩
      rcases List.mem_filter.mp hc2 with ⟨hc2l, hpred⟩
      rw [hid] at hpred
      simp at hpred
  · intro h1 h2
    unfold ConnectionManager.sendToClient
    rw [hf]
    simp [h1, h2]
  · intro h1
    unfold ConnectionManager.sendToClient
    rw [hf]
    simp [h1]

/-- C8 witness: the three amended cases at concrete one-entry tables. -/
theorem sendToClient_failure_semantics_witness :
    ConnectionManager.sendToClient ⟨[⟨"a", ⟨true, true⟩, 0, 0, true⟩]⟩ "a" =
      (false, (ConnectionManager.removeConnection
        ⟨[⟨"a", ⟨true, true⟩, 0, 0, true⟩]⟩ "a").2) ∧
    ConnectionManager.sendToClient ⟨[⟨"a", ⟨true, false⟩, 0, 0, true⟩]⟩ "a" =
      (true, ⟨[⟨"a", ⟨true, false⟩, 0, 0, true⟩]⟩) ∧
    ConnectionManager.sendToClient ⟨[⟨"a", ⟨false, false⟩, 0, 0, true⟩]⟩ "a" =
      (false, ⟨[⟨"a", ⟨false, false⟩, 0, 0, true⟩]⟩) :=
  ⟨((sendToClient_failure_semantics ⟨[⟨"a", ⟨true, true⟩, 0, 0, true⟩]⟩ "a"
      ⟨"a", ⟨true, true⟩, 0, 0, true⟩ (by decide)).1 rfl rfl).1,
   (sendToClient_failure_semantics ⟨[⟨"a", ⟨true, false⟩, 0, 0, true⟩]⟩ "a"
      ⟨"a", ⟨true, false⟩, 0, 0, true⟩ (by decide)).2.1 rfl rfl,
   (sendToClient_failure_semantics ⟨[⟨"a", ⟨false, false⟩, 0, 0, true⟩]⟩ "a"
      ⟨"a", ⟨false, false⟩, 0, 0, true⟩ (by decide)).2.2 rfl⟩

/-- C9: inbound dispatch never escapes the router: a raw message whose parse
fails is dropped with the table unchanged (the connection is neither removed
nor closed), and a successfully parsed message of any type other than `ping`
(`auth`, or any unknown kind) leaves the table unchanged and sends nothing. -/
theorem dispatch_inbound_safe (parseType : String → Option String)
    (m : ConnectionManager) (clientId raw : String) (now : Nat) :
    (parseType raw = none →
      handleStudentMessage parseType m clientId raw now = (m, [])) ∧
    (∀ ty, parseType raw = some ty → (ty == "ping") = false →
      handleStudentMessage parseType m clientId raw now = (m, [])) := by
  constructor
  · intro h
    simp [handleStudentMessage, h]
  · intro ty h hty
    simp only [handleStudentMessage, h, hty, Bool.false_eq_true, if_false]
    cases hau : (ty == "auth") <;> simp [hau]

/-- C9 witness: a failing parse and an unknown message type, both at a
concrete table, leave the table untouched and send nothing. -/
theorem dispatch_inbound_safe_witness :
    handleStudentMessage (fun s => if s == "bad" then none else some s)
        ⟨[⟨"a", ⟨true, false⟩, 0, 0, true⟩]⟩ "a" "bad" 3 =
      (⟨[⟨"a", ⟨true, false⟩, 0, 0, true⟩]⟩, []) ∧
    handleStudentMessage (fun s => if s == "bad" then none else some s)
        ⟨[⟨"a", ⟨true, false⟩, 0, 0, true⟩]⟩ "a" "hello" 3 =
      (⟨[⟨"a", ⟨true, false⟩, 0, 0, true⟩]⟩, []) :=
  ⟨(dispatch_inbound_safe (fun s => if s == "bad" then none else some s)
      ⟨[⟨"a", ⟨true, false⟩, 0, 0, true⟩]⟩ "a" "bad" 3).1 (by decide),
   (dispatch_inbound_safe (fun s => if s == "bad" then none else some s)
      ⟨[⟨"a", ⟨true, false⟩, 0, 0, true⟩]⟩ "a" "hello" 3).2 "hello" (by decide) (by decide)⟩

/-- C5: `shouldSyncFile` denies any path that matches at least one effective
exclude pattern, even when include patterns would also match (exclusion always
wins), and denies any path whose normalized form does not lie under the
workspace root, regardless of the include and exclude pattern lists. -/
theorem filter_exclude_wins_and_boundary (po : PathOps) (cfg : SyncSettings)
    (filePath : String) (ws : Option String) :
    ((∃ p ∈ (loadConfiguration cfg).excludePatterns,
        po.minimatchDot (patternPathOf po filePath ws) p = true) →
      shouldSyncFile po cfg filePath ws = false) ∧
    (∀ wp, ws = some wp →
      strStartsWith (po.normalize filePath) (po.normalize wp) = false →
      shouldSyncFile po cfg filePath ws = false) := by
  constructor
  · intro hex
    rcases hex with ⟨p, hp, hm⟩
    have hany : (loadConfiguration cfg).excludePatterns.any
        (fun q => po.minimatchDot (patternPathOf po filePath ws) q) = true :=
      List.any_eq_true.mpr ⟨p, hp, hm⟩
    cases ws with
    | none => simp [shouldSyncFile, hany]
    | some wp =>
      cases hb : strStartsWith (po.normalize filePath) (po.normalize wp) with
      | false => simp [shouldSyncFile, hb]
      | true => simp [shouldSyncFile, hb, hany]
  · intro wp hws hb
    subst hws
    simp [shouldSyncFile, hb]

/-- C5 witness: with a matcher that compares pattern and path literally, a
path matched by both an include and an exclude pattern is denied, and a path
outside the workspace root is denied. -/
theorem filter_exclude_wins_and_boundary_witness :
    shouldSyncFile
      ⟨fun s => s, fun _ p => p, fun p pat => p == pat, fun _ => ""⟩
      ⟨some [".env"], some [".env"], none⟩ ".env" (some "") = false ∧
    shouldSyncFile
      ⟨fun s => s, fun _ p => p, fun p pat => p == pat, fun _ => ""⟩
      ⟨some [".env"], some [".env"], none⟩ "/x" (some "/y") = false :=
  ⟨(filter_exclude_wins_and_boundary
      ⟨fun s => s, fun _ p => p, fun p pat => p == pat, fun _ => ""⟩
      ⟨some [".env"], some [".env"], none⟩ ".env" (some "")).1 (by decide),
   (filter_exclude_wins_and_boundary
      ⟨fun s => s, fun _ p => p, fun p pat => p == pat, fun _ => ""⟩
      ⟨some [".env"], some [".env"], none⟩ "/x" (some "/y")).2 "/y" rfl (by decide)⟩

/-- C6 counterexample: a caller-supplied empty exclude list replaces the
default exclude set instead of being merged with it.  With a matcher that
agrees with `minimatch` on the inputs exercised, `.env` inside the workspace
is allowed when the caller configures `excludePatterns = []`, while the same
path is denied when the caller leaves the setting unset; the loaded exclude
set under the empty caller configuration is `[]`, not the default set. -/
theorem default_excludes_replaced_cex :
    shouldSyncFile
      ⟨fun s => s, fun _ p => p,
       fun p pat => pat == "**/.env" && p == ".env", fun _ => ""⟩
      ⟨none, some [], none⟩ ".env" (some "") = true ∧
    shouldSyncFile
      ⟨fun s => s, fun _ p => p,
       fun p pat => pat == "**/.env" && p == ".env", fun _ => ""⟩
      ⟨none, none, none⟩ ".env" (some "") = false ∧
    (loadConfiguration ⟨none, some [], none⟩).excludePatterns = [] := by
  decide

/-- C6 amended: the defaults apply only when the caller supplies no value for
the setting at all; any caller-supplied exclude list, including the empty
list, replaces the default exclude set rather than being merged with it. -/
theorem load_configuration_replacement (cfg : SyncSettings) (l : List String) :
    (cfg.excludePatterns = some l → (loadConfiguration cfg).excludePatterns = l) ∧
    (cfg.excludePatterns = none →
      (loadConfiguration cfg).excludePatterns = defaultExcludePatterns) := by
  constructor
  · intro h
    simp [loadConfiguration, h]
  · intro h
    simp [loadConfiguration, h]

/-- C6 witness: the two amended cases at concrete configurations. -/
theorem load_configuration_replacement_witness :
    (loadConfiguration ⟨none, some ["x"], none⟩).excludePatterns = ["x"] ∧
    (loadConfiguration ⟨none, none, none⟩).excludePatterns = defaultExcludePatterns :=
  ⟨(load_configuration_replacement ⟨none, some ["x"], none⟩ ["x"]).1 rfl,
   (load_configuration_replacement ⟨none, none, none⟩ []).2 rfl⟩

theorem runBurst_state (cs : List String) (c : String) (s : FileSyncState)
    (d : TrackedDoc) (h : s.currentDocument = some d) :
    runBurst s d.uri (c :: cs) =
      { s with
        currentDocument := some { d with content := (c :: cs).getLast (by simp) },
        debounceTimer := true } := by
  induction cs generalizing s d c with
  | nil =>
    simp [runBurst, handleDocumentChange, h]
  | cons c2 cs' ih =>
    have hstep : handleDocumentChange s d.uri c true =
        { s with currentDocument := some { d with content := c },
                 debounceTimer := true } := by
      simp [handleDocumentChange, h]
    have hrec := ih c2
      { s with currentDocument := some { d with content := c },
               debounceTimer := true }
      { d with content := c } rfl
    show runBurst (handleDocumentChange s d.uri c true) d.uri (c2 :: cs') = _
    rw [hstep]
    rw [hrec]
    simp [List.getLast_cons]

/-- C3: for every burst of one or more content-changed events on the tracked
document, each arriving before the pending debounce timer expires, the timer
expiry broadcasts exactly one `file_update`, and its content is the document
content as of the last event of the burst (the snapshot is taken at fire
time). -/
theorem debounce_burst_single_update (allowed : String → Bool)
    (s : FileSyncState) (d : TrackedDoc) (cs : List String)
    (h : s.currentDocument = some d) (hne : cs ≠ [])
    (ha : allowed d.uri = true) :
    debounceFire allowed (runBurst s d.uri cs) =
      { currentDocument := some { d with content := cs.getLast hne },
        debounceTimer := false,
        sent := s.sent ++
          [BroadcastMsg.fileUpdate d.uri d.fileName d.language (cs.getLast hne)] } := by
  cases cs with
  | nil => exact absurd rfl hne
  | cons c cs' =>
    rw [runBurst_state cs' c s d h]
    simp [debounceFire, syncFileUpdate, ha]

/-- C3 witness: three rapid edits produce exactly one `file_update`, carrying
the final content. -/
theorem debounce_burst_single_update_witness :
    debounceFire (fun _ => true)
        (runBurst ⟨some ⟨"u", "n", "l", "a"⟩, false, []⟩ "u" ["ab", "abc", "abcd"]) =
      ⟨some ⟨"u", "n", "l", "abcd"⟩, false,
        [BroadcastMsg.fileUpdate "u" "n" "l" "abcd"]⟩ := by
  have h := debounce_burst_single_update (fun _ => true)
    ⟨some ⟨"u", "n", "l", "a"⟩, false, []⟩ ⟨"u", "n", "l", "a"⟩
    ["ab", "abc", "abcd"] rfl (by decide) rfl
  simpa using h

/-- C4: when the tracked document has a pending debounce timer and the active
document switches to one with a different identity, the timer is cancelled:
the only message the switch can emit is a `file_switch` for the new document,
and a subsequent timer expiry is a no-op, so no `file_update` for the
abandoned document is ever broadcast on that timer's behalf. -/
theorem switch_cancels_pending_timer (allowed : String → Bool)
    (s : FileSyncState) (d e : TrackedDoc)
    (h : s.currentDocument = some d) (hp : s.debounceTimer = true)
    (hne : (d.uri == e.uri) = false) :
    (handleEditorChange allowed s (some e)).debounceTimer = false ∧
    (handleEditorChange allowed s (some e)).sent =
      s.sent ++ (if allowed e.uri then
        [BroadcastMsg.fileSwitch e.uri e.fileName e.language e.content] else []) ∧
    debounceFire allowed (handleEditorChange allowed s (some e)) =
      handleEditorChange allowed s (some e) := by
  have hh : handleEditorChange allowed s (some e) =
      syncFileSwitch allowed
        { s with debounceTimer := false, currentDocument := some e } e := by
    simp [handleEditorChange, h, hne]
  rw [hh]
  cases ha : allowed e.uri <;> simp [syncFileSwitch, debounceFire, ha]

/-- C4 witness: a concrete switch away from a document with a pending timer. -/
theorem switch_cancels_pending_timer_witness :
    (handleEditorChange (fun u => u == "v")
        ⟨some ⟨"u", "n", "l", "a"⟩, true, []⟩ (some ⟨"v", "m", "k", "b"⟩)).debounceTimer = false ∧
    (handleEditorChange (fun u => u == "v")
        ⟨some ⟨"u", "n", "l", "a"⟩, true, []⟩ (some ⟨"v", "m", "k", "b"⟩)).sent =
      [] ++ (if (fun u => u == "v") "v" then
        [BroadcastMsg.fileSwitch "v" "m" "k" "b"] else []) ∧
    debounceFire (fun u => u == "v")
        (handleEditorChange (fun u => u == "v")
          ⟨some ⟨"u", "n", "l", "a"⟩, true, []⟩ (some ⟨"v", "m", "k", "b"⟩)) =
      handleEditorChange (fun u => u == "v")
        ⟨some ⟨"u", "n", "l", "a"⟩, true, []⟩ (some ⟨"v", "m", "k", "b"⟩) :=
  switch_cancels_pending_timer (fun u => u == "v")
    ⟨some ⟨"u", "n", "l", "a"⟩, true, []⟩ ⟨"u", "n", "l", "a"⟩ ⟨"v", "m", "k", "b"⟩
    rfl rfl (by decide)

/-- C7 counterexample: an active-editor event carrying a document with the
same identity as the tracked one is not a no-op: with a pending debounce
timer the handler clears the timer (before the identity check), so the state
changes. -/
theorem same_document_not_noop_cex :
    handleEditorChange (fun _ => true)
        ⟨some ⟨"u", "n", "l", "a"⟩, true, []⟩ (some ⟨"u", "n", "l", "a"⟩) ≠
      ⟨some ⟨"u", "n", "l", "a"⟩, true, []⟩ := by
  decide

/-- C7 amended: an active-editor event with the same document identity leaves
the tracked document and the broadcast log unchanged and emits no message,
but it does cancel any pending debounce timer. -/
theorem same_document_clears_timer (allowed : String → Bool)
    (s : FileSyncState) (d e : TrackedDoc)
    (h : s.currentDocument = some d) (he : (d.uri == e.uri) = true) :
    handleEditorChange allowed s (some e) = { s with debounceTimer := false } := by
  simp [handleEditorChange, h, he]

/-- C7 witness: the amended behaviour at a concrete state with a pending
timer. -/
theorem same_document_clears_timer_witness :
    handleEditorChange (fun _ => true)
        ⟨some ⟨"u", "n", "l", "a"⟩, true, []⟩ (some ⟨"u", "n", "l", "a"⟩) =
      ⟨some ⟨"u", "n", "l", "a"⟩, false, []⟩ :=
  same_document_clears_timer (fun _ => true)
    ⟨some ⟨"u", "n", "l", "a"⟩, true, []⟩ ⟨"u", "n", "l", "a"⟩ ⟨"u", "n", "l", "a"⟩
    rfl (by decide)
